import Mathlib

/-!
Verification development for the `httprs` package (`src/httprs.go`), a
ReadSeeker adapter over `http.Response.Body` that satisfies `Seek` by issuing
HTTP range requests.

The Go code is shallowly embedded below. Conventions of the embedding:
* `http.Header` (`map[string][]string`) becomes an association list from key
  to value list; the code accesses keys with consistent literal strings, so no
  canonicalisation is needed.
* `io.ReadCloser` bodies come exclusively from `http.Response.Body`; they are
  modelled as a byte list plus a `closed` flag with the `net/http` body
  semantics: reading a closed body fails, closing twice is harmless.
* The HTTP client capability (`c.Do`) becomes a function from a request to
  either an error or a response.
* Go `int64`/`int` positions and lengths become `Int`; byte values become
  `Nat`; a `Read` call receives the capacity of its buffer and returns the
  bytes actually read.
* Mutation becomes explicit state passing: every method returns the updated
  `HttpReadSeeker` next to its Go return values.
-/

namespace Httprs

/-- Go `http.Header`: a map from header key to list of values, as an
association list (first binding for a key wins, as maps hold one binding). -/
abbrev Header := List (String × List String)

/-- Go `http.Header.Get`: first value for the key, or `""` when absent or
the value list is empty. -/
def headerGet (h : Header) (k : String) : String :=
  match h.find? (fun kv => kv.fst == k) with
  | some (_, v :: _) => v
  | _ => ""

/-- Go `http.Header.Set`: replace all bindings of the key by one value. -/
def headerSet (h : Header) (k v : String) : Header :=
  (k, [v]) :: h.filter (fun kv => kv.fst != k)

/-- `cloneHeader` (src/httprs.go lines 172-180): copy the map entry by entry,
copying each value slice. -/
def cloneHeader (h : Header) : Header :=
  h.map (fun kv => (kv.fst, kv.snd.map (fun s => s)))

/-- Errors of the package (src/httprs.go lines 48-58) together with the
external error values that can flow through it: `io.EOF`, `net/http`'s
"read on closed response body", and opaque transport errors from `c.Do`. -/
inductive HError where
  | ErrNoContentLength
  | ErrRangeRequestsNotSupported
  | ErrInvalidRange
  | ErrContentHasChanged
  | ErrReadOnClosedBody
  | ErrEOF
  | transport (code : Nat)
deriving DecidableEq, Repr

/-- An `http.Request` as the adapter uses it: method, URL, header map, the
declared `ContentLength` of its outgoing body, whether `Body` is non-nil, and
its context (`none` models a nil context). -/
structure Request where
  method : String
  url : String
  header : Header
  contentLength : Int
  hasBody : Bool
  ctx : Option Nat
deriving DecidableEq, Repr

/-- A body of a response: the remaining bytes and whether it has been closed.
`read` and `close` below model `net/http` response-body behaviour (the only
bodies the adapter ever stores): a closed body fails every read, and closing
an already closed body returns no error. -/
structure Body where
  data : List Nat
  closed : Bool
deriving DecidableEq, Repr

/-- One `Read(p)` call on a response body with `len(p) = n`: a closed body
returns the read-on-closed error; `n = 0` reads nothing; an exhausted body
returns `io.EOF`; otherwise up to `n` bytes are delivered. -/
def Body.read (b : Body) (n : Nat) : List Nat × Body × Option HError :=
  if b.closed then ([], b, some .ErrReadOnClosedBody)
  else if n = 0 then ([], b, none)
  else if b.data = [] then ([], b, some .ErrEOF)
  else (b.data.take n, { b with data := b.data.drop n }, none)

/-- `Close()` on a response body: marks it closed; returns no error, also
when already closed (as `net/http` response bodies do). -/
def Body.close (b : Body) : Body × Option HError :=
  ({ b with closed := true }, none)

/-- An `http.Response` as the adapter uses it: status code, header map,
`ContentLength` (`-1` when unknown, per `net/http`), body, and the request
that produced it (`res.Request`). -/
structure Response where
  statusCode : Nat
  header : Header
  contentLength : Int
  body : Body
  request : Request
deriving DecidableEq, Repr

/-- The HTTP client capability: `c.Do(req)` returns a response or an error. -/
def Client := Request → Except HError Response

/-- Models the process-global `http.DefaultClient` fallback of the
constructor. No claim depends on its behaviour; it stands for an arbitrary
client. -/
def defaultClient : Client := fun _ => Except.error (.transport 0)

/-- `shortSeekBytes` (src/httprs.go line 29). -/
def shortSeekBytes : Int := 1024

/-- `HttpReadSeeker` (src/httprs.go lines 33-43): client, stored base
request, initial response, captured context, currently open body (`r`),
logical position `pos`, `canSeek`, and the exported `Requests` counter. -/
structure HttpReadSeeker where
  c : Client
  req : Request
  res : Response
  ctx : Option Nat
  r : Option Body
  pos : Int
  canSeek : Bool
  Requests : Nat

/-- `NewHttpReadSeeker` (src/httprs.go lines 65-79): capture `res.Request`
and its context, reuse `res.Body` as the initial open body, fix `canSeek`
from `Accept-Ranges`, and store the optional client (default otherwise).
`pos` and `Requests` start at their zero values. -/
def NewHttpReadSeeker (res : Response) (client : Option Client) : HttpReadSeeker :=
  { req := res.request
    ctx := res.request.ctx
    res := res
    r := some res.body
    pos := 0
    canSeek := headerGet res.header "Accept-Ranges" == "bytes"
    Requests := 0
    c := client.getD defaultClient }

/-- `copystructure.Copy` applied to the stored `*http.Request`: a deep copy
of the exported fields (the header map is copied entry by entry); the
unexported context field cannot be copied by reflection and is left at its
zero value. -/
def copystructureCopy (q : Request) : Request :=
  { method := q.method
    url := q.url
    header := cloneHeader q.header
    contentLength := q.contentLength
    hasBody := q.hasBody
    ctx := none }

/-- `Clone` (src/httprs.go lines 82-94): deep-copy the base request and build
a fresh adapter sharing `res` and `c`; `r` is explicitly nil, and the struct
literal leaves `ctx`, `pos` and `Requests` at their zero values. Copying a
plain request succeeds, so the error branch of `copystructure.Copy` is never
taken in the model. -/
def Clone (r : HttpReadSeeker) : Except HError HttpReadSeeker :=
  Except.ok
    { req := copystructureCopy r.req
      res := r.res
      r := none
      canSeek := r.canSeek
      c := r.c
      ctx := none
      pos := 0
      Requests := 0 }

/-- `newRequest` (src/httprs.go lines 182-189): derive a request carrying
the captured context (`WithContext` shallow-copies the request), clear a
zero-length outgoing body, and deep-copy the headers. -/
def newRequest (r : HttpReadSeeker) : Request :=
  let newreq := { r.req with ctx := r.ctx }
  let newreq := if r.req.contentLength = 0 then { newreq with hasBody := false } else newreq
  { newreq with header := cloneHeader r.req.header }

/-- The request built by `rangeRequest` (src/httprs.go lines 192-200):
a fresh derived request with `Range: bytes=<pos>-` set, and `If-Range` set to
the initial response's `Last-Modified` when present, else to its `ETag` when
present, else not set. -/
def rangeRequestReq (r : HttpReadSeeker) : Request :=
  let req := newRequest r
  let req := { req with header := headerSet req.header "Range" ("bytes=" ++ toString r.pos ++ "-") }
  let etag := headerGet r.res.header "ETag"
  let last := headerGet r.res.header "Last-Modified"
  if last ≠ "" then { req with header := headerSet req.header "If-Range" last }
  else if etag ≠ "" then { req with header := headerSet req.header "If-Range" etag }
  else req

/-- `rangeRequest` (src/httprs.go lines 191-223): store the derived request
in `r.req`, increment `Requests`, dispatch via the client; propagate a
transport error; then interpret the status: 416 is an invalid range, 200 is
rejected as content-changed when `pos > 0` or a captured ETag mismatches the
returned one and otherwise falls through to the 206 case which installs the
response body as the open body, and any other status is
range-requests-not-supported. -/
def rangeRequest (r : HttpReadSeeker) : HttpReadSeeker × Option HError :=
  let req := rangeRequestReq r
  let etag := headerGet r.res.header "ETag"
  let r1 : HttpReadSeeker := { r with req := req, Requests := r.Requests + 1 }
  match r.c req with
  | Except.error e => (r1, some e)
  | Except.ok res =>
    if res.statusCode = 416 then (r1, some .ErrInvalidRange)
    else if res.statusCode = 200 then
      if r.pos > 0 ∨ (etag ≠ "" ∧ etag ≠ headerGet res.header "ETag") then
        (r1, some .ErrContentHasChanged)
      else ({ r1 with r := some res.body }, none)
    else if res.statusCode = 206 then ({ r1 with r := some res.body }, none)
    else (r1, some .ErrRangeRequestsNotSupported)

/-- `Read` (src/httprs.go lines 99-108): when no body is open, first run
`rangeRequest`; then, if a body is open (possibly just opened), read from it
and advance `pos` by the bytes read, the read's error replacing the first
one; when the range request failed and no body is open, return its error. -/
def Read (r : HttpReadSeeker) (n : Nat) : HttpReadSeeker × List Nat × Option HError :=
  let s :=
    match r.r with
    | none => rangeRequest r
    | some _ => (r, none)
  match s.1.r with
  | none => (s.1, [], s.2)
  | some b =>
    let t := b.read n
    ({ s.1 with r := some t.2.1, pos := s.1.pos + t.1.length }, t.1, t.2.2)

/-- `io.CopyN(ioutil.Discard, r, k)` as called inside `Seek` (src/httprs.go
line 157): repeatedly `Read` from the adapter, discarding the bytes, until
`k` bytes have been consumed (no error), a read fails (its error), or a read
makes no progress without error (`io.EOF`, fewer than `k` bytes copied). -/
def copyNDiscard (r : HttpReadSeeker) (k : Nat) : HttpReadSeeker × Option HError :=
  if hk : k = 0 then (r, none)
  else
    let step := Read r k
    if hm : step.2.1.length = k then (step.1, none)
    else
      match step.2.2 with
      | some e => (step.1, some e)
      | none =>
        if hz : step.2.1.length = 0 then (step.1, some .ErrEOF)
        else copyNDiscard step.1 (k - step.2.1.length)
termination_by k
decreasing_by exact Nat.sub_lt (Nat.pos_of_ne_zero hk) (Nat.pos_of_ne_zero hz)

/-- The tail of `Seek` (src/httprs.go lines 163-169): with a body open, if
the position differs from the target, close the body (keeping its error) and
clear `r.r`; finally assign `pos` and return it with the pending error. -/
def seekFinish (r : HttpReadSeeker) (offset : Int) : HttpReadSeeker × Int × Option HError :=
  match r.r with
  | some b =>
    if r.pos ≠ offset then
      ({ r with r := none, pos := offset }, offset, (b.close).2)
    else
      ({ r with pos := offset }, offset, none)
  | none => ({ r with pos := offset }, offset, none)

/-- `Seek` (src/httprs.go lines 139-170): fail when `canSeek` is false;
resolve the target by whence (0 absolute, 1 relative to `pos`, 2 relative to
`res.ContentLength`, failing when that is `<= 0`; any other whence leaves the
offset as given, as the Go switch has no default case); with a body open and
the target ahead by at most `shortSeekBytes`, discard-read through the
adapter (returning 0 and the error when that fails); then close the body if
the position still differs, assign `pos`, and return it. -/
def Seek (r : HttpReadSeeker) (offset : Int) (whence : Int) : HttpReadSeeker × Int × Option HError :=
  if r.canSeek = false then (r, 0, some .ErrRangeRequestsNotSupported)
  else if whence = 2 ∧ r.res.contentLength ≤ 0 then (r, 0, some .ErrNoContentLength)
  else
    let target := if whence = 1 then offset + r.pos
                  else if whence = 2 then r.res.contentLength + offset
                  else offset
    match r.r with
    | none => ({ r with pos := target }, target, none)
    | some _ =>
      if r.pos < target ∧ target - r.pos ≤ shortSeekBytes then
        let c := copyNDiscard r (target - r.pos).toNat
        match c.2 with
        | some e => (c.1, 0, some e)
        | none => seekFinish c.1 target
      else seekFinish r target

/-- `Close` (src/httprs.go lines 126-131): close the open body when there is
one — note the Go code does not clear `r.r` — and return no error when no
body is open. -/
def Close (r : HttpReadSeeker) : HttpReadSeeker × Option HError :=
  match r.r with
  | some b =>
    let t := b.close
    ({ r with r := some t.1 }, t.2)
  | none => (r, none)

/-- The loop of `ReadAt` (src/httprs.go lines 118-121): while the buffer has
space and no error occurred, `Read` into the remaining space, accumulating
bytes. The fuel argument bounds the iterations; `ReadAt` supplies enough for
the loop as every iteration either errors or makes progress. -/
def readAtLoop : Nat → HttpReadSeeker → List Nat → Nat → HttpReadSeeker × List Nat × Option HError
  | 0, r, acc, _ => (r, acc, none)
  | fuel + 1, r, acc, space =>
    if space = 0 then (r, acc, none)
    else
      let t := Read r space
      match t.2.2 with
      | some e => (t.1, acc ++ t.2.1, some e)
      | none => readAtLoop fuel t.1 (acc ++ t.2.1) (space - t.2.1.length)

/-- `ReadAt` (src/httprs.go lines 113-123): `Seek(off, 0)` with both return
values discarded, then the read loop until the buffer (of capacity `space`)
is full or a read errors. -/
def ReadAt (r : HttpReadSeeker) (space : Nat) (off : Int) : HttpReadSeeker × List Nat × Option HError :=
  let s := Seek r off 0
  readAtLoop (space + 1) s.1 [] space

/-!
### Aliasing model for `Clone`

The independence property of `Clone` (mutating one adapter's request headers
never alters the other's) is about sharing of mutable Go maps, which the
value-level model above cannot express. Here the header map of a request is
held by reference into an explicit heap, so that deep versus shallow copying
is observable. `copystructureCopyRef` is `copystructure.Copy` on the stored
request: it allocates a fresh cell holding a copy of the header map, so the
copy's reference is the next free address. `CloneRef` is `Clone`
(src/httprs.go lines 82-94) at this granularity: the cloned adapter gets the
deep-copied request, shares the initial response and client (identified by
`resId`/`clientId`), and holds no open body. `setHeaderAt` is a header
mutation (`Header.Set`) performed through a reference. -/

/-- Heap of header maps: contents of each cell, and the next free address. -/
structure HeaderHeap where
  mem : Nat → Header
  next : Nat

/-- A request whose header map lives in the heap. -/
structure RefRequest where
  method : String
  url : String
  headerRef : Nat
deriving DecidableEq, Repr

/-- An adapter as `Clone` sees it: its request, the identities of the shared
initial response and client, and its open body reference (if any). -/
structure RefAdapter where
  req : RefRequest
  resId : Nat
  clientId : Nat
  bodyRef : Option Nat
deriving DecidableEq, Repr

/-- `copystructure.Copy` on the stored request: deep copy, i.e. the header
map is copied into a fresh heap cell. -/
def copystructureCopyRef (h : HeaderHeap) (q : RefRequest) : HeaderHeap × RefRequest :=
  ({ mem := fun n => if n = h.next then h.mem q.headerRef else h.mem n, next := h.next + 1 },
   { q with headerRef := h.next })

/-- `Clone` (src/httprs.go lines 82-94) in the aliasing model: deep-copy the
request; share response metadata and client; no open body. -/
def CloneRef (h : HeaderHeap) (a : RefAdapter) : HeaderHeap × RefAdapter :=
  let p := copystructureCopyRef h a.req
  (p.1, { req := p.2, resId := a.resId, clientId := a.clientId, bodyRef := none })

/-- Mutate the header map a reference points to (e.g. `req.Header.Set`). -/
def setHeaderAt (h : HeaderHeap) (ref : Nat) (k v : String) : HeaderHeap :=
  { h with mem := fun n => if n = ref then headerSet (h.mem n) k v else h.mem n }

/-!
### Concrete fixtures

Closed states used by counterexamples and witnesses: a fixture request, a
13-byte fixture content, responses, and adapter states in various modes. -/

/-- Fixture base request. -/
def wRequest : Request :=
  { method := "GET", url := "http://example.test/file", header := [("Accept", ["*/*"])],
    contentLength := 0, hasBody := false, ctx := some 1 }

/-- Fixture content: the full remote entity, bytes `100..112`. -/
def wBytes : List Nat := [100, 101, 102, 103, 104, 105, 106, 107, 108, 109, 110, 111, 112]

/-- Fixture initial response: range-capable, with a `Last-Modified`
validator and no `ETag`. -/
def wResponse : Response :=
  { statusCode := 200
    header := [("Accept-Ranges", ["bytes"]), ("Last-Modified", ["Tue, 15 Nov 1994 12:45:26 GMT"])]
    contentLength := 13
    body := { data := wBytes, closed := false }
    request := wRequest }

/-- A client that always fails at transport level. -/
def errClient : Client := fun _ => Except.error (.transport 7)

/-- A 206 response delivering three bytes. -/
def res206Fix : Response :=
  { statusCode := 206, header := [], contentLength := 3,
    body := { data := [97, 98, 99], closed := false }, request := wRequest }

/-- A 200 full-entity response with no `ETag`. -/
def res200Plain : Response :=
  { statusCode := 200, header := [], contentLength := 13,
    body := { data := wBytes, closed := false }, request := wRequest }

/-- Seek-capable adapter with no open body. -/
def wSeekable : HttpReadSeeker :=
  { c := errClient, req := wRequest, res := wResponse, ctx := some 1,
    r := none, pos := 0, canSeek := true, Requests := 0 }

/-- Seek-capable adapter at position 0 with the full content open as body. -/
def wC2 : HttpReadSeeker :=
  { c := errClient, req := wRequest, res := wResponse, ctx := some 1,
    r := some { data := wBytes, closed := false }, pos := 0, canSeek := true, Requests := 0 }

/-- Seek-capable adapter at position 5 with no open body. -/
def wC5 : HttpReadSeeker :=
  { c := errClient, req := wRequest, res := wResponse, ctx := some 1,
    r := none, pos := 5, canSeek := true, Requests := 0 }

/-- Adapter built from a response without `Accept-Ranges: bytes`, with a
body open at position 4. -/
def wNoSeek : HttpReadSeeker :=
  { c := errClient, req := wRequest, res := { wResponse with header := [] }, ctx := some 1,
    r := some { data := wBytes.drop 4, closed := false }, pos := 4, canSeek := false, Requests := 0 }

/-- Seek-capable adapter at logical position `-1` (reachable via
`Seek(-1, 0)`, which performs no negativity check) whose server answers 200
with no `ETag`. -/
def cexC1 : HttpReadSeeker :=
  { c := fun _ => Except.ok res200Plain, req := wRequest, res := wResponse, ctx := some 1,
    r := none, pos := -1, canSeek := true, Requests := 0 }

/-- Seek-capable adapter whose initial response has the known total length
`0` (`Content-Length: 0`, not the unknown marker `-1`). -/
def cexC3 : HttpReadSeeker :=
  { c := errClient, req := wRequest,
    res := { statusCode := 200, header := [("Accept-Ranges", ["bytes"]), ("Content-Length", ["0"])],
             contentLength := 0, body := { data := [], closed := false }, request := wRequest },
    ctx := some 1, r := none, pos := 0, canSeek := true, Requests := 0 }

/-- Non-seek-capable adapter whose body is open at position 10 of the
fixture content (the body holds `wBytes.drop 10`). -/
def cexC6 : HttpReadSeeker :=
  { c := errClient, req := wRequest, res := { wResponse with header := [] }, ctx := some 1,
    r := some { data := wBytes.drop 10, closed := false }, pos := 10, canSeek := false, Requests := 0 }

/-- Seek-capable adapter with no open body whose server honours range
requests with `res206Fix`. -/
def cexC7 : HttpReadSeeker :=
  { c := fun _ => Except.ok res206Fix, req := wRequest, res := wResponse, ctx := some 1,
    r := none, pos := 3, canSeek := true, Requests := 0 }

/-- Adapter used to witness the status-interpretation theorem: position 5,
no open body, server answering 206. -/
def wC1Adapter : HttpReadSeeker :=
  { c := fun _ => Except.ok res206Fix, req := wRequest, res := wResponse, ctx := some 1,
    r := none, pos := 5, canSeek := true, Requests := 0 }

/-- Fixture heap holding one header map at address 0. -/
def wHeap : HeaderHeap := { mem := fun _ => [("Accept", ["*/*"])], next := 1 }

/-- Fixture adapter in the aliasing model, its request's headers at
address 0. -/
def wRefAdapter : RefAdapter :=
  { req := { method := "GET", url := "http://example.test/file", headerRef := 0 },
    resId := 0, clientId := 0, bodyRef := none }

/-- The adapter `Clone wC2` produces. -/
def wClone : HttpReadSeeker :=
  { req := copystructureCopy wC2.req, res := wC2.res, r := none,
    canSeek := wC2.canSeek, c := wC2.c, ctx := none, pos := 0, Requests := 0 }

/-!
### Helper lemmas
-/

/-- Copying a header map entry by entry yields an equal value. -/
theorem cloneHeader_eq (h : Header) : cloneHeader h = h := by
  unfold cloneHeader
  simp

/-- `find?` for one key ignores the removal of bindings of a different key. -/
theorem find_filter_key_ne (h : Header) (k k' : String) (hne : k ≠ k') :
    (h.filter (fun kv => kv.fst != k)).find? (fun kv => kv.fst == k') =
      h.find? (fun kv => kv.fst == k') := by
  induction h with
  | nil => rfl
  | cons a t ih =>
    by_cases hak : a.fst = k
    · have h1 : (a.fst != k) = false := by simp [hak]
      have h2 : (a.fst == k') = false := by simp [hak, hne]
      simp [List.filter_cons, List.find?, h1, h2, ih]
    · have h1 : (a.fst != k) = true := by simp [hak]
      by_cases hak' : a.fst = k'
      · simp [List.filter_cons, List.find?, h1, hak', Ne.symm hne]
      · have h2 : (a.fst == k') = false := by simp [hak']
        simp [List.filter_cons, List.find?, h1, h2, ih]

/-- `Get` after `Set` of the same key returns the set value. -/
theorem headerGet_headerSet_self (h : Header) (k v : String) :
    headerGet (headerSet h k v) k = v := by
  simp [headerGet, headerSet, List.find?]

/-- `Get` after `Set` of a different key is unchanged. -/
theorem headerGet_headerSet_ne (h : Header) (k k' v : String) (hne : k ≠ k') :
    headerGet (headerSet h k v) k' = headerGet h k' := by
  have h2 : (k == k') = false := by simp [hne]
  simp [headerGet, headerSet, List.find?, h2, find_filter_key_ne h k k' hne]

/-- The derived request of `newRequest` carries a copy of the base request's
headers, equal in value to the base headers. -/
theorem newRequest_header (r : HttpReadSeeker) :
    (newRequest r).header = r.req.header := by
  unfold newRequest
  split <;> simp [cloneHeader_eq]

/-- A `Seek` on a non-seek-capable adapter fails immediately, leaving the
adapter (hence `pos`) unchanged. -/
theorem Seek_not_canSeek (r : HttpReadSeeker) (off w : Int) (h : r.canSeek = false) :
    Seek r off w = (r, 0, some .ErrRangeRequestsNotSupported) := by
  simp [Seek, h]

/-- An absolute `Seek` with no open body just assigns the offset. -/
theorem Seek_whence0_noBody (r : HttpReadSeeker) (off : Int)
    (hc : r.canSeek = true) (hr : r.r = none) :
    Seek r off 0 = ({ r with pos := off }, off, none) := by
  simp [Seek, hc, hr]

/-- `rangeRequest` increments the `Requests` counter exactly once, whatever
the client returns. -/
theorem rangeRequest_Requests (r : HttpReadSeeker) :
    (rangeRequest r).1.Requests = r.Requests + 1 := by
  unfold rangeRequest
  cases h : r.c (rangeRequestReq r) with
  | error e => simp [h]
  | ok res =>
    simp only [h]
    split_ifs <;> simp

/-- A `Read` with no open body runs `rangeRequest`, so the counter goes up
by exactly one whatever happens next. -/
theorem Read_noBody_Requests (r : HttpReadSeeker) (n : Nat) (h : r.r = none) :
    (Read r n).1.Requests = r.Requests + 1 := by
  unfold Read
  simp only [h]
  cases hr : (rangeRequest r).1.r <;> simp [hr, rangeRequest_Requests]

/-- A `Read` from an open, non-closed, non-exhausted body consumes its
prefix and advances `pos` by the bytes read, with no request issued. -/
theorem Read_openBody (r : HttpReadSeeker) (b : Body) (n : Nat)
    (hb : r.r = some b) (hopen : b.closed = false) (hn : n ≠ 0) (hne : b.data ≠ []) :
    Read r n = ({ r with
                  r := some { data := b.data.drop n, closed := false }
                  pos := r.pos + (b.data.take n).length }, b.data.take n, none) := by
  unfold Read
  simp [hb, Body.read, hopen, hn, hne]

/-- The discard copy of `k` bytes from an adapter whose open body holds at
least `k` bytes succeeds in one read, advancing `pos` by `k`. -/
theorem copyNDiscard_enough (r : HttpReadSeeker) (b : Body) (k : Nat)
    (hb : r.r = some b) (hopen : b.closed = false) (hk : 0 < k) (hlen : k ≤ b.data.length) :
    copyNDiscard r k =
      ({ r with
         r := some { data := b.data.drop k, closed := false }
         pos := r.pos + k }, none) := by
  have hne : b.data ≠ [] := by
    intro hnil
    rw [hnil] at hlen
    simp at hlen
    omega
  have hread := Read_openBody r b k hb hopen (Nat.pos_iff_ne_zero.mp hk) hne
  have htake : (b.data.take k).length = k := by
    simp [List.length_take, Nat.min_eq_left hlen]
  rw [copyNDiscard]
  rw [dif_neg (Nat.pos_iff_ne_zero.mp hk)]
  simp only [hread, htake]
  simp

/-- The tail of `Seek` returns the target as the new position, assigns it to
`pos`, issues no request, and reports no error. -/
theorem seekFinish_spec (r : HttpReadSeeker) (t : Int) :
    (seekFinish r t).2.1 = t ∧ (seekFinish r t).1.pos = t ∧
    (seekFinish r t).1.Requests = r.Requests ∧ (seekFinish r t).2.2 = none := by
  unfold seekFinish
  cases h : r.r with
  | none => simp
  | some b =>
    by_cases hp : r.pos ≠ t <;> simp [hp, Body.close]

/-!
### Claims
-/

/-- Claim C3 (amended): a `Seek` on a non-seek-capable adapter fails
immediately with the range-requests-not-supported error, leaving
`logicalPosition` unchanged; a whence-2 seek fails with the length-unknown
error whenever the stored total length is `≤ 0` — which covers both the
unknown marker `-1` and a known zero length, not only the unknown case the
claim describes; otherwise the target is `offset` for whence 0,
`offset + pos` for whence 1 and `contentLength + offset` for whence 2, and
a successful `Seek` returns that target and assigns it to `pos`. -/
theorem Seek_whence_semantics (r : HttpReadSeeker) (off w : Int) :
    (r.canSeek = false → Seek r off w = (r, 0, some .ErrRangeRequestsNotSupported)) ∧
    (r.canSeek = true → w = 2 → r.res.contentLength ≤ 0 →
      Seek r off w = (r, 0, some .ErrNoContentLength)) ∧
    (r.canSeek = true → (Seek r off w).2.2 = none →
      (Seek r off w).2.1 =
        (if w = 1 then off + r.pos else if w = 2 then r.res.contentLength + off else off) ∧
      (Seek r off w).1.pos = (Seek r off w).2.1) := by
  refine ⟨fun h => Seek_not_canSeek r off w h, ?_, ?_⟩
  · intro hc hw hl
    simp [Seek, hc, hw, hl]
  · intro hc herr
    by_cases hg : w = 2 ∧ r.res.contentLength ≤ 0
    · exfalso
      rw [Seek] at herr
      rw [if_neg (by simp [hc])] at herr
      rw [if_pos hg] at herr
      exact Option.noConfusion herr
    · rw [Seek] at herr ⊢
      rw [if_neg (by simp [hc])] at herr ⊢
      rw [if_neg hg] at herr ⊢
      set T := (if w = 1 then off + r.pos
        else if w = 2 then r.res.contentLength + off else off) with hT
      cases hr : r.r with
      | none => exact ⟨rfl, rfl⟩
      | some b =>
        simp only [hr] at herr ⊢
        by_cases hcond : r.pos < T ∧ T - r.pos ≤ shortSeekBytes
        · rw [if_pos hcond] at herr ⊢
          cases hcn : (copyNDiscard r (T - r.pos).toNat).2 with
          | some e =>
            rw [hcn] at herr
            simp at herr
          | none =>
            have hs := seekFinish_spec (copyNDiscard r (T - r.pos).toNat).1 T
            exact ⟨hs.1, hs.2.1.trans hs.1.symm⟩
        · rw [if_neg hcond] at herr ⊢
          have hs := seekFinish_spec r T
          exact ⟨hs.1, hs.2.1.trans hs.1.symm⟩

/-- Claim C3, counterexample to the claim as stated: `cexC3`'s initial
response carries the definite total length 0 (in Go, only `-1` marks an
unknown length), so by the claim a whence-2 seek should resolve to target
`0 + 5 = 5` and succeed; instead the code's `ContentLength <= 0` test makes
it fail with the length-unknown error. -/
theorem Seek_end_relative_zero_length_fails :
    cexC3.res.contentLength = 0 ∧
    Seek cexC3 5 2 = (cexC3, 0, some .ErrNoContentLength) := by
  constructor <;> rfl

/-- Claim C3, witness: the theorem applied to the non-seek-capable fixture
adapter. -/
theorem Seek_whence_semantics_witness :
    Seek wNoSeek 3 0 = (wNoSeek, 0, some .ErrRangeRequestsNotSupported) :=
  (Seek_whence_semantics wNoSeek 3 0).1 rfl

/-- Claim C4 (amended): `Seek` performs no negativity check. A resolved
target that is negative is stored into `logicalPosition` verbatim and
returned together with a `nil` error — the caller error is neither surfaced
nor clamped, and `logicalPosition` does become negative. (Shown here for an
absolute seek with no open body; the assignment `r.pos = offset` is
unconditional in the code.) -/
theorem Seek_negative_target_not_rejected (r : HttpReadSeeker) (off : Int)
    (hc : r.canSeek = true) (hr : r.r = none) (hneg : off < 0) :
    Seek r off 0 = ({ r with pos := off }, off, none) ∧ (Seek r off 0).1.pos < 0 := by
  have h := Seek_whence0_noBody r off hc hr
  refine ⟨h, ?_⟩
  rw [h]
  exact hneg

/-- Claim C4, counterexample to the claim as stated: `Seek(-5, 0)` on a
seek-capable adapter returns no error and sets `logicalPosition` to `-5`,
while the claim requires an error and a non-negative position. -/
theorem Seek_accepts_negative_offset :
    (Seek wSeekable (-5) 0).2.2 = none ∧ (Seek wSeekable (-5) 0).1.pos = -5 := by
  constructor <;> rfl

/-- Claim C4, witness: the amended theorem applied at offset `-3`. -/
theorem Seek_negative_target_not_rejected_witness :
    Seek wSeekable (-3) 0 = ({ wSeekable with pos := -3 }, -3, none) ∧
    (Seek wSeekable (-3) 0).1.pos < 0 :=
  Seek_negative_target_not_rejected wSeekable (-3) rfl rfl (by decide)

/-- Claim C6 (amended): `ReadAt(buffer, offset)` is `Seek(offset, 0)`
followed by repeated reads until the buffer is full or a read errors — but
the seek's error is discarded. When the seek succeeds (no open body case
shown) reading starts from `offset`; when the seek fails, reading proceeds
from the unchanged current position, so a failed seek does not prevent
reading from a different position: the result does not even depend on the
requested offset. -/
theorem ReadAt_ignores_seek_error (r : HttpReadSeeker) (space : Nat) (off off' : Int) :
    (ReadAt r space off = readAtLoop (space + 1) (Seek r off 0).1 [] space) ∧
    (r.canSeek = false →
      (Seek r off 0).2.2 = some .ErrRangeRequestsNotSupported ∧
      ReadAt r space off = readAtLoop (space + 1) r [] space ∧
      ReadAt r space off = ReadAt r space off') ∧
    (r.canSeek = true → r.r = none →
      ReadAt r space off = readAtLoop (space + 1) { r with pos := off } [] space) := by
  refine ⟨rfl, ?_, ?_⟩
  · intro h
    have h1 := Seek_not_canSeek r off 0 h
    have h2 := Seek_not_canSeek r off' 0 h
    refine ⟨by rw [h1], ?_, ?_⟩
    · unfold ReadAt
      rw [h1]
    · unfold ReadAt
      rw [h1, h2]
  · intro hc hr
    unfold ReadAt
    rw [Seek_whence0_noBody r off hc hr]

/-- Claim C6, counterexample to the claim as stated: `cexC6` is not
seek-capable and its body is open at position 10 of the 13-byte fixture
content `wBytes`. `ReadAt(buffer of 2, offset 0)` has its seek step fail,
yet returns the bytes at position 10 — not the stream's bytes starting at
offset 0 as the claim requires. -/
theorem ReadAt_reads_stale_position :
    (Seek cexC6 0 0).2.2 = some HError.ErrRangeRequestsNotSupported ∧
    (ReadAt cexC6 2 0).2.1 = [110, 111] ∧
    wBytes.take 2 = [100, 101] ∧
    (ReadAt cexC6 2 0).2.1 ≠ wBytes.take 2 := by
  refine ⟨rfl, rfl, rfl, by decide⟩

/-- Claim C6, witness: the amended theorem applied to the non-seek-capable
fixture adapter with two different offsets. -/
theorem ReadAt_ignores_seek_error_witness :
    ReadAt wNoSeek 3 0 = readAtLoop 4 wNoSeek [] 3 ∧
    ReadAt wNoSeek 3 0 = ReadAt wNoSeek 3 9 :=
  ⟨((ReadAt_ignores_seek_error wNoSeek 3 0 9).2.1 rfl).2.1,
   ((ReadAt_ignores_seek_error wNoSeek 3 0 9).2.1 rfl).2.2⟩

/-- Claim C7 (amended): after `Close`, reads through a body that was open at
close time fail: `Close` closes the body but leaves `r.r` pointing at it, so
a subsequent `Read` reads the closed body, returns no bytes, fails with the
read-on-closed-body error and leaves `pos` unchanged. (When no body was
open, `Close` is a no-op and a later `Read` may issue a fresh range request
and succeed — see the counterexample.) -/
theorem Read_after_close_with_open_body (r : HttpReadSeeker) (b : Body) (n : Nat)
    (hb : r.r = some b) :
    (Read (Close r).1 n).2.1 = [] ∧
    (Read (Close r).1 n).2.2 = some .ErrReadOnClosedBody ∧
    (Read (Close r).1 n).1.pos = r.pos := by
  have hclose : (Close r).1 = { r with r := some { b with closed := true } } := by
    simp [Close, hb, Body.close]
  rw [hclose]
  unfold Read
  simp [Body.read]

/-- Claim C7, counterexample to the claim as stated: `cexC7` holds no open
body, so `Close` is a no-op returning no error; a subsequent `Read` then
issues a range request, gets a 206, and successfully reads three bytes —
reads after `Close` are not prevented. -/
theorem Read_after_close_can_succeed :
    cexC7.r = none ∧
    (Close cexC7).2 = none ∧
    (Read (Close cexC7).1 4).2.1 = [97, 98, 99] ∧
    (Read (Close cexC7).1 4).2.2 = none := by
  refine ⟨rfl, rfl, rfl, rfl⟩

/-- Claim C7, witness: the amended theorem applied to the fixture adapter
whose body is open. -/
theorem Read_after_close_with_open_body_witness :
    (Read (Close wC2).1 5).2.1 = [] ∧
    (Read (Close wC2).1 5).2.2 = some HError.ErrReadOnClosedBody ∧
    (Read (Close wC2).1 5).1.pos = wC2.pos :=
  Read_after_close_with_open_body wC2 { data := wBytes, closed := false } 5 rfl

/-- Claim C8: `Close` releases (closes) the open body when one is open,
returns no error when nothing is open, and a second `Close` after a
successful `Close` also returns no error (the embedding is total, so no
crash is possible). -/
theorem Close_releases_and_idempotent (r : HttpReadSeeker) (b : Body) :
    (r.r = none → Close r = (r, none)) ∧
    (r.r = some b → Close r = ({ r with r := some { b with closed := true } }, none)) ∧
    (Close (Close r).1).2 = none := by
  refine ⟨fun h => by simp [Close, h], fun h => by simp [Close, h, Body.close], ?_⟩
  cases h : r.r with
  | none => simp [Close, h]
  | some b' => simp [Close, h, Body.close]

/-- Claim C8, witness: the theorem applied to the fixture adapter with an
open body. -/
theorem Close_releases_and_idempotent_witness :
    Close wC2 = ({ wC2 with r := some { data := wBytes, closed := true } }, none) ∧
    (Close (Close wC2).1).2 = none :=
  ⟨(Close_releases_and_idempotent wC2 { data := wBytes, closed := false }).2.1 rfl,
   (Close_releases_and_idempotent wC2 { data := wBytes, closed := false }).2.2⟩

/-- Claim C9: `Clone` shares the original's initial-response metadata and
client capability, holds no open body, and deep-copies the base request —
including the header map, which lands in a fresh heap cell with equal
contents — so mutating headers through either adapter's request reference
never alters the header map the other adapter's request references. -/
theorem Clone_deep_copies_request (h : HeaderHeap) (a : RefAdapter)
    (hv : a.req.headerRef < h.next) :
    (CloneRef h a).2.resId = a.resId ∧
    (CloneRef h a).2.clientId = a.clientId ∧
    (CloneRef h a).2.bodyRef = none ∧
    (CloneRef h a).2.req.method = a.req.method ∧
    (CloneRef h a).2.req.url = a.req.url ∧
    (CloneRef h a).2.req.headerRef ≠ a.req.headerRef ∧
    (CloneRef h a).1.mem (CloneRef h a).2.req.headerRef = h.mem a.req.headerRef ∧
    (∀ k v, (setHeaderAt (CloneRef h a).1 (CloneRef h a).2.req.headerRef k v).mem
        a.req.headerRef = (CloneRef h a).1.mem a.req.headerRef) ∧
    (∀ k v, (setHeaderAt (CloneRef h a).1 a.req.headerRef k v).mem
        (CloneRef h a).2.req.headerRef =
        (CloneRef h a).1.mem (CloneRef h a).2.req.headerRef) := by
  have hne : a.req.headerRef ≠ h.next := by omega
  unfold CloneRef copystructureCopyRef setHeaderAt
  refine ⟨rfl, rfl, rfl, rfl, rfl, ?_, ?_, ?_, ?_⟩
  · simpa using fun hcontra => hne hcontra.symm
  · simp
  · intro k v
    simp [hne]
  · intro k v
    simp [Ne.symm hne]

/-- Claim C9, witness: the theorem applied to the fixture heap and adapter:
the clone's header reference is distinct, and setting a header through it
leaves the original's header map unchanged. -/
theorem Clone_deep_copies_request_witness :
    (CloneRef wHeap wRefAdapter).2.req.headerRef ≠ wRefAdapter.req.headerRef ∧
    (setHeaderAt (CloneRef wHeap wRefAdapter).1 (CloneRef wHeap wRefAdapter).2.req.headerRef
        "Range" "bytes=0-").mem wRefAdapter.req.headerRef =
      (CloneRef wHeap wRefAdapter).1.mem wRefAdapter.req.headerRef := by
  have h := Clone_deep_copies_request wHeap wRefAdapter (by decide)
  exact ⟨h.2.2.2.2.2.1, h.2.2.2.2.2.2.2.1 "Range" "bytes=0-"⟩

/-- Claim C10: a successful `Clone` yields an adapter whose logical position
is 0, whose request counter is 0, with no open body, and whose stored
context is unset (`nil`) rather than the original's captured context — the
Go struct literal in `Clone` leaves all four at their zero values. -/
theorem Clone_resets_state (r r' : HttpReadSeeker) (h : Clone r = Except.ok r') :
    r'.pos = 0 ∧ r'.Requests = 0 ∧ r'.r = none ∧ r'.ctx = none := by
  unfold Clone at h
  injection h with h
  subst h
  exact ⟨rfl, rfl, rfl, rfl⟩

/-- Claim C10, witness: the theorem applied to `wC2` (which sits mid-stream
with an open body and a captured context) and its clone. -/
theorem Clone_resets_state_witness :
    wClone.pos = 0 ∧ wClone.Requests = 0 ∧ wClone.r = none ∧ wClone.ctx = none :=
  Clone_resets_state wC2 wClone rfl

/-- Claim C1 (amended): for a range request answered by the client with
response `res`: status 416 fails with the invalid-range error; status 200
is accepted — no error, its body becoming the open body — exactly when
`logicalPosition ≤ 0` (the code tests `pos > 0`, so every non-positive
position is accepted, not only position 0 as the claim states) and the
captured ETag is absent or equal to the returned one, and otherwise fails
with the content-changed error; status 206 is accepted unconditionally; any
other status fails with the range-requests-not-supported error. On every
failure the open body is left unchanged. -/
theorem rangeRequest_status_interpretation (r : HttpReadSeeker) (res : Response)
    (hc : r.c (rangeRequestReq r) = Except.ok res) :
    (res.statusCode = 416 →
      (rangeRequest r).2 = some .ErrInvalidRange ∧ (rangeRequest r).1.r = r.r) ∧
    (res.statusCode = 200 → r.pos ≤ 0 →
      (headerGet r.res.header "ETag" = "" ∨
        headerGet r.res.header "ETag" = headerGet res.header "ETag") →
      (rangeRequest r).2 = none ∧ (rangeRequest r).1.r = some res.body) ∧
    (res.statusCode = 200 →
      (0 < r.pos ∨ (headerGet r.res.header "ETag" ≠ "" ∧
        headerGet r.res.header "ETag" ≠ headerGet res.header "ETag")) →
      (rangeRequest r).2 = some .ErrContentHasChanged ∧ (rangeRequest r).1.r = r.r) ∧
    (res.statusCode = 206 →
      (rangeRequest r).2 = none ∧ (rangeRequest r).1.r = some res.body) ∧
    (res.statusCode ≠ 416 → res.statusCode ≠ 200 → res.statusCode ≠ 206 →
      (rangeRequest r).2 = some .ErrRangeRequestsNotSupported ∧
      (rangeRequest r).1.r = r.r) := by
  refine ⟨?_, ?_, ?_, ?_, ?_⟩
  · intro h416
    simp [rangeRequest, hc, h416]
  · intro h200 hpos hetag
    have hcond : ¬(r.pos > 0 ∨ (headerGet r.res.header "ETag" ≠ "" ∧
        headerGet r.res.header "ETag" ≠ headerGet res.header "ETag")) := by
      rintro (hgt | ⟨hne, hnee⟩)
      · omega
      · rcases hetag with he | he
        · exact hne he
        · exact hnee he
    simp [rangeRequest, hc, h200, hcond]
  · intro h200 hcond
    simp [rangeRequest, hc, h200, hcond]
  · intro h206
    simp [rangeRequest, hc, h206]
  · intro h416 h200 h206
    simp [rangeRequest, hc, h416, h200, h206]

/-- Claim C1, counterexample to the claim as stated: `cexC1` sits at
logical position `-1` (reachable through `Seek`, which performs no
negativity check) and its server answers a full-entity 200 with no ETag.
The claim permits acceptance of a 200 only when `logicalPosition == 0`, but
the code's `pos > 0` test accepts it here: no error, and the 200 body
becomes the open body. -/
theorem rangeRequest_accepts_200_at_neg_pos :
    cexC1.pos = -1 ∧
    (rangeRequest cexC1).2 = none ∧
    (rangeRequest cexC1).1.r = some { data := wBytes, closed := false } := by
  refine ⟨rfl, rfl, rfl⟩

/-- Claim C1, witness: the amended theorem applied to a fixture whose
server answers 206: the request succeeds and the 206 body becomes the open
body. -/
theorem rangeRequest_status_interpretation_witness :
    (rangeRequest wC1Adapter).2 = none ∧
    (rangeRequest wC1Adapter).1.r = some { data := [97, 98, 99], closed := false } :=
  (rangeRequest_status_interpretation wC1Adapter res206Fix rfl).2.2.2.1 rfl

/-- Claim C5: every range request is built on a freshly derived request and
carries `Range: bytes=<logicalPosition>-`; `If-Range` is set to the initial
response's `Last-Modified` when present, else to its `ETag` when present,
and otherwise the adapter sets no `If-Range` (the derived request keeps
whatever the base request's headers carried, here stated as equality with
the base request's `If-Range`); and the `Requests` counter goes up by
exactly one before dispatch, whatever the client answers. -/
theorem rangeRequest_headers_and_counter (r : HttpReadSeeker) :
    headerGet (rangeRequestReq r).header "Range" = "bytes=" ++ toString r.pos ++ "-" ∧
    (headerGet r.res.header "Last-Modified" ≠ "" →
      headerGet (rangeRequestReq r).header "If-Range" =
        headerGet r.res.header "Last-Modified") ∧
    (headerGet r.res.header "Last-Modified" = "" →
      headerGet r.res.header "ETag" ≠ "" →
      headerGet (rangeRequestReq r).header "If-Range" = headerGet r.res.header "ETag") ∧
    (headerGet r.res.header "Last-Modified" = "" →
      headerGet r.res.header "ETag" = "" →
      headerGet (rangeRequestReq r).header "If-Range" =
        headerGet r.req.header "If-Range") ∧
    (rangeRequest r).1.Requests = r.Requests + 1 := by
  have hbase : (newRequest r).header = r.req.header := newRequest_header r
  by_cases hL : headerGet r.res.header "Last-Modified" = ""
  · by_cases hE : headerGet r.res.header "ETag" = ""
    · have hform : (rangeRequestReq r).header =
          headerSet (newRequest r).header "Range" ("bytes=" ++ toString r.pos ++ "-") := by
        simp [rangeRequestReq, hL, hE]
      refine ⟨?_, ?_, ?_, ?_, rangeRequest_Requests r⟩
      · rw [hform, headerGet_headerSet_self]
      · intro hcon
        exact absurd hL hcon
      · intro _ hcon
        exact absurd hE hcon
      · intro _ _
        rw [hform, headerGet_headerSet_ne _ _ _ _ (by decide), hbase]
    · have hform : (rangeRequestReq r).header =
          headerSet (headerSet (newRequest r).header "Range"
              ("bytes=" ++ toString r.pos ++ "-"))
            "If-Range" (headerGet r.res.header "ETag") := by
        simp [rangeRequestReq, hL, hE]
      refine ⟨?_, ?_, ?_, ?_, rangeRequest_Requests r⟩
      · rw [hform, headerGet_headerSet_ne _ _ _ _ (by decide), headerGet_headerSet_self]
      · intro hcon
        exact absurd hL hcon
      · intro _ _
        rw [hform, headerGet_headerSet_self]
      · intro _ hcon
        exact absurd hcon hE
  · have hform : (rangeRequestReq r).header =
        headerSet (headerSet (newRequest r).header "Range"
            ("bytes=" ++ toString r.pos ++ "-"))
          "If-Range" (headerGet r.res.header "Last-Modified") := by
      simp [rangeRequestReq, hL]
    refine ⟨?_, ?_, ?_, ?_, rangeRequest_Requests r⟩
    · rw [hform, headerGet_headerSet_ne _ _ _ _ (by decide), headerGet_headerSet_self]
    · intro _
      rw [hform, headerGet_headerSet_self]
    · intro hcon _
      exact absurd hcon hL
    · intro hcon _
      exact absurd hcon hL

/-- Claim C5, witness: the theorem applied to the fixture at position 5,
whose initial response carries a `Last-Modified` validator. -/
theorem rangeRequest_headers_and_counter_witness :
    headerGet (rangeRequestReq wC5).header "Range" = "bytes=5-" ∧
    headerGet (rangeRequestReq wC5).header "If-Range" = "Tue, 15 Nov 1994 12:45:26 GMT" ∧
    (rangeRequest wC5).1.Requests = 1 := by
  obtain ⟨h1, h2, _, _, h5⟩ := rangeRequest_headers_and_counter wC5
  refine ⟨h1.trans (by decide), (h2 (by decide)).trans (by decide), h5⟩

/-- Claim C2: with a body open on a seek-capable adapter, a forward seek by
`0 < d ≤ shortSeekBytes` (1024) whose intervening bytes the body can supply
is satisfied by discard-reading those bytes from the open body: the body
advances by `d`, `pos` becomes the target, no error occurs, and `Requests`
is unchanged (the result record keeps the original counter). A forward seek
by `d > shortSeekBytes` instead closes and clears the body without touching
the counter, and a subsequent `Read` — whatever the client then answers —
increments `Requests` by exactly one. -/
theorem Seek_short_forward_discard (r : HttpReadSeeker) (b : Body) (d : Nat)
    (hc : r.canSeek = true) (hb : r.r = some b) (hopen : b.closed = false)
    (hd : 0 < d) :
    ((d : Int) ≤ shortSeekBytes → d ≤ b.data.length →
      Seek r (r.pos + (d : Int)) 0 =
        ({ r with
           r := some { data := b.data.drop d, closed := false }
           pos := r.pos + (d : Int) }, r.pos + (d : Int), none)) ∧
    (shortSeekBytes < (d : Int) →
      Seek r (r.pos + (d : Int)) 0 =
        ({ r with r := none, pos := r.pos + (d : Int) }, r.pos + (d : Int), none) ∧
      ∀ n, (Read (Seek r (r.pos + (d : Int)) 0).1 n).1.Requests = r.Requests + 1) := by
  have hT2 : r.pos + (d : Int) - r.pos = (d : Int) := by ring
  constructor
  · intro hshort hlen
    rw [Seek]
    rw [if_neg (by simp [hc])]
    rw [if_neg (by norm_num)]
    simp only [show ((0 : Int) = 1) = False from by norm_num,
      show ((0 : Int) = 2) = False from by norm_num, if_false, hb]
    rw [if_pos ?side]
    case side =>
      refine ⟨by omega, ?_⟩
      rw [hT2]
      exact hshort
    · have harg : (r.pos + (d : Int) - r.pos).toNat = d := by omega
      rw [harg, copyNDiscard_enough r b d hb hopen hd hlen]
      rw [seekFinish]
      simp
  · intro hlong
    have hSeek : Seek r (r.pos + (d : Int)) 0 =
        ({ r with r := none, pos := r.pos + (d : Int) }, r.pos + (d : Int), none) := by
      rw [Seek]
      rw [if_neg (by simp [hc])]
      rw [if_neg (by norm_num)]
      simp only [show ((0 : Int) = 1) = False from by norm_num,
        show ((0 : Int) = 2) = False from by norm_num, if_false, hb]
      rw [if_neg ?side]
      case side =>
        rintro ⟨_, h2⟩
        rw [hT2] at h2
        exact absurd h2 (not_le.mpr hlong)
      · rw [seekFinish]
        simp only [hb]
        rw [if_pos (by omega)]
        rfl
    refine ⟨hSeek, ?_⟩
    intro n
    rw [hSeek]
    exact Read_noBody_Requests { r with r := none, pos := r.pos + (d : Int) } n rfl

/-- Claim C2, witness: on the fixture adapter (body of 13 bytes open at
position 0), a forward seek by 2 consumes two bytes from the body, leaves
the counter at 0, and a forward-seek target computed the same way with the
two branches is covered by the short branch. -/
theorem Seek_short_forward_discard_witness :
    Seek wC2 (wC2.pos + ((2 : Nat) : Int)) 0 =
      ({ wC2 with
         r := some { data := wBytes.drop 2, closed := false }
         pos := wC2.pos + ((2 : Nat) : Int) }, wC2.pos + ((2 : Nat) : Int), none) :=
  (Seek_short_forward_discard wC2 { data := wBytes, closed := false } 2 rfl rfl rfl
    (by decide)).1 (by decide) (by decide)

end Httprs
